import Mathlib

/-!
# SnapURL — shallow embedding of the URL service core

This file embeds the parts of the SnapURL repository that concern URL
creation, resolution, deletion, click counting and popularity queries:

* the `urlSchema` document model, its virtuals (`clickThroughRate`,
  `isExpired`) and its `recordClick` instance method;
* `UrlService.createUrl`, `getUrlByShortCode`, `deleteUrl`,
  `getPopularUrls`, `bulkCreateUrls` and `_generateUniqueShortCode`;
* the `deleteUrl` controller, the Joi `createUrl` request schema and the
  `validateShortCode` helper.

The MongoDB collection is modelled as a list of `Link` records in natural
(insertion) order; `findOne` is `List.find?`, `countDocuments` is the
length of a `filter`, `findOneAndDelete` is `List.eraseP`, and
`findByIdAndUpdate` with `$inc` is a map over the user list (a no-op when
the id is absent, as in MongoDB).  Timestamps are integer milliseconds.
Randomness in short-code generation is modelled by an explicit supply of
candidate codes.  All definitions are executable.
-/

namespace SnapURL

/-- Constant `config.maxUrlLength` from `src/config/config.js` (default 2048). -/
def maxUrlLength : Nat := 2048

/-- Constant `config.allowCustomAlias` from `src/config/config.js` (default true). -/
def allowCustomAlias : Bool := true

/-- Milliseconds per day, as in the `days * 24 * 60 * 60 * 1000` expressions. -/
def msPerDay : Int := 86400000

/-- A URL document of the mongoose `urlSchema` (only the fields the verified
operations read or write).  `id` stands for the Mongo `_id`. -/
structure Link where
  id : Nat
  originalUrl : String
  shortCode : String
  customAlias : Option String := none
  userId : Option Nat := none
  isActive : Bool := true
  expiresAt : Option Int := none
  clickCount : Nat := 0
  uniqueClicks : Nat := 0
  lastClickedAt : Option Int := none
  createdAt : Int := 0
  deriving Repr, DecidableEq

/-- A user document of the mongoose `userSchema`, reduced to the denormalized
`urlCount` counter cache that the URL service updates. -/
structure User where
  id : Nat
  urlCount : Int := 0
  deriving Repr, DecidableEq

/-- The document store: the `URL` and `User` collections, plus a counter
supplying fresh `_id`s for inserted links. -/
structure DB where
  links : List Link
  users : List User
  nextId : Nat := 0
  deriving Repr, DecidableEq

/-- JS `String.prototype.trim`, computed on the character list. -/
def trimStr (s : String) : String :=
  ⟨((s.data.dropWhile Char.isWhitespace).reverse.dropWhile Char.isWhitespace).reverse⟩

/-- Model of `UrlService._isValidUrl`: it parses with `new NodeURL(url)` and accepts only
the `http:`/`https:` protocols.  Modelled as the scheme-prefix check (on the
character lists), which is what that parse-and-check amounts to on the URLs
considered here. -/
def validateUrlFormat (url : String) : Bool :=
  "http://".data.isPrefixOf url.data || "https://".data.isPrefixOf url.data

/-- Character class of the `/^[A-Za-z0-9_-]+$/` regex used for short codes
and custom aliases (model schema and `validateShortCode`). -/
def shortCodeChar (c : Char) : Bool :=
  c.isAlphanum || c = '_' || c = '-'

/-- Helper `validateShortCode` from `src/middleware/errorHandler.js`: returns the
accumulated error messages; the code is valid iff no error is produced. -/
def validateShortCodeErrors (code : String) : List String :=
  if code.length = 0 then ["Short code is required"]
  else
    (if code.length < 3 then ["Short code is too short (min 3 characters)"] else []) ++
    (if 30 < code.length then ["Short code is too long (max 30 characters)"] else []) ++
    (if code.data.all shortCodeChar then [] else ["Short code contains invalid characters"])

/-- Validity bit `validateShortCode(code).isValid`. -/
def validateShortCode (code : String) : Bool :=
  validateShortCodeErrors code = []

/-- The Joi rule `schemas.createUrl.customAlias` from
`src/middleware/validation.js`: `Joi.string().alphanum().min(3).max(30)`.
A request whose `customAlias` fails this rule is rejected by the
`validate(schemas.createUrl)` middleware with a 400 before the service runs. -/
def joiCustomAliasValid (s : String) : Bool :=
  s.data.all Char.isAlphanum && 3 ≤ s.length && s.length ≤ 30

/-- The `isExpired` virtual: `this.expiresAt && this.expiresAt < new Date()`. -/
def isExpired (now : Int) (l : Link) : Bool :=
  match l.expiresAt with
  | some t => t < now
  | none => false

/-- The `clickThroughRate` virtual:
`clickCount === 0 ? 0 : Math.round(uniqueClicks / clickCount * 100 * 100) / 100`.
JS `Math.round` is `⌊x + 1/2⌋`, which is Mathlib's `round`. -/
def clickThroughRate (clickCount uniqueClicks : Nat) : ℚ :=
  if clickCount = 0 then 0
  else ((round ((uniqueClicks : ℚ) / (clickCount : ℚ) * 100 * 100) : ℤ) : ℚ) / 100

/-- Method `urlSchema.methods.recordClick`: `clickCount += 1`, set `lastClickedAt`,
and `uniqueClicks += 1` iff the click data marks the click unique. -/
def recordClick (l : Link) (now : Int) (isUnique : Bool) : Link :=
  { l with
    clickCount := l.clickCount + 1
    lastClickedAt := some now
    uniqueClicks := if isUnique then l.uniqueClicks + 1 else l.uniqueClicks }

/-- A counter-touching operation in a link's lifetime: either a recorded
click (`recordClick`) or the view increment performed by
`getUrlByShortCode(code, incrementView = true)`. -/
inductive ClickOp where
  | record (now : Int) (isUnique : Bool)
  | view
  deriving Repr, DecidableEq

/-- Apply one counter operation to a link. -/
def applyClickOp (l : Link) : ClickOp → Link
  | .record now isUnique => recordClick l now isUnique
  | .view => { l with clickCount := l.clickCount + 1 }

/-- Query `URL.countDocuments({ userId, isActive: true })`. -/
def countActiveLinks (db : DB) (u : Nat) : Nat :=
  (db.links.filter fun l => l.userId = some u && l.isActive).length

/-- Query `URL.findOne({ originalUrl, userId, isActive: true })` — the duplicate
check in `createUrl`. -/
def findActiveDup (db : DB) (originalUrl : String) (u : Nat) : Option Link :=
  db.links.find? fun l =>
    l.originalUrl = originalUrl && l.userId = some u && l.isActive

/-- Query `URL.findOne({ $or: [{ shortCode: c }, { customAlias: c }] })` — the
uniqueness probe over both code namespaces (no `isActive` filter). -/
def findByCode (db : DB) (code : String) : Option Link :=
  db.links.find? fun l => l.shortCode = code || l.customAlias = some code

/-- Update `User.findByIdAndUpdate(u, { $inc: { urlCount: d } })`: it adds `d` to the
user's `urlCount` cache; a no-op when no such user exists. -/
def incUrlCount (db : DB) (u : Nat) (d : Int) : DB :=
  { db with
    users := db.users.map fun usr =>
      if usr.id = u then { usr with urlCount := usr.urlCount + d } else usr }

/-- Read a user's `urlCount` cache (0 when the user is absent). -/
def getUrlCount (db : DB) (u : Nat) : Int :=
  match db.users.find? (fun usr => usr.id = u) with
  | some usr => usr.urlCount
  | none => 0

/-- Whether a user document with this id exists. -/
def userPresent (db : DB) (u : Nat) : Bool :=
  (db.users.find? fun usr => usr.id = u).isSome

/-- Model of `UrlService._generateUniqueShortCode`: it draws random codes (modelled by
the `supply` stream), skipping blank draws and draws already present in
either code namespace, for at most 10 attempts.  Returns the chosen code and
the rest of the stream, or `none` when the attempts are exhausted (the
`"Unable to generate unique short code"` error path). -/
def genUniqueShortCode (db : DB) : List String → Nat → Option (String × List String)
  | _, 0 => none
  | [], _ + 1 => none
  | c :: rest, fuel + 1 =>
    if trimStr c = "" then genUniqueShortCode db rest fuel
    else if (findByCode db c).isSome then genUniqueShortCode db rest fuel
    else some (c, rest)

/-- Result of `UrlService.createUrl`: either the returned
`{ url, isNew }` payload or the message of the thrown error. -/
inductive CreateResult where
  | ok (url : Link) (isNew : Bool)
  | err (msg : String)
  deriving Repr, DecidableEq

/-- The `catch` block of `createUrl` rethrows with this prefix. -/
def wrapCreateErr (m : String) : String := "URL creation failed: " ++ m

/-- Error message literals of `UrlService.createUrl`, verbatim. -/
def invalidUrlMsg : String :=
  "Invalid URL format. URL must start with http:// or https://"

/-- The URL-length error (with `config.maxUrlLength = 2048` interpolated). -/
def urlTooLongMsg : String :=
  "URL too long. Maximum length is 2048 characters"

/-- The per-owner quota error thrown when the owner has 20 or more active links. -/
def quotaMsg : String :=
  "URL limit reached. You can create up to 20 shortened URLs. Please delete some existing URLs to create new ones, or contact support for a premium account with higher limits."

/-- Error thrown when `config.allowCustomAlias` is false. -/
def aliasNotAllowedMsg : String :=
  "Custom aliases are not allowed on this instance"

/-- Error thrown when the requested alias collides with either namespace. -/
def aliasTakenMsg : String :=
  "Custom alias is already taken"

/-- Error thrown when code generation exhausts its attempts. -/
def genExhaustedMsg : String :=
  "Unable to generate unique short code after multiple attempts"

/-- The invalid-alias error with the `validateShortCode` errors interpolated. -/
def invalidAliasMsg (aliasStr : String) : String :=
  "Invalid custom alias: " ++ String.intercalate ", " (validateShortCodeErrors aliasStr)

/-- The quota guard of `createUrl`: with an authenticated owner, 20 or more
active links trigger the limit error. -/
def quotaHit (db : DB) (userId : Option Nat) : Bool :=
  match userId with
  | some u => 20 ≤ countActiveLinks db u
  | none => false

/-- The document construction and save tail of `createUrl`: builds the link
(with `expiresAt` derived from `expiresIn` days when given), appends it to
the collection, and `$inc`s the owner's `urlCount` cache. -/
def saveNewLink (db : DB) (supply : List String) (now : Int) (originalUrl : String)
    (customAlias : Option String) (userId : Option Nat) (expiresIn : Option Int)
    (code : String) : CreateResult × DB × List String :=
  let expiresAt : Option Int :=
    match expiresIn with
    | some d => if d ≠ 0 then some (now + d * msPerDay) else none
    | none => none
  let doc : Link :=
    { id := db.nextId
      originalUrl := originalUrl
      shortCode := code
      customAlias :=
        match customAlias with
        | some a => if trimStr a ≠ "" then some (trimStr a) else none
        | none => none
      userId := userId
      isActive := true
      expiresAt := expiresAt
      clickCount := 0
      uniqueClicks := 0
      lastClickedAt := none
      createdAt := now }
  let db1 : DB := { db with links := db.links ++ [doc], nextId := db.nextId + 1 }
  let db2 : DB :=
    match userId with
    | some u => incUrlCount db1 u 1
    | none => db1
  (.ok doc true, db2, supply)

/-- Service method `UrlService.createUrl`, step for step: URL format check, length check,
per-owner quota, duplicate `(originalUrl, userId)` return, custom-alias
validation and collision check (or unique-code generation), then save and
owner `urlCount` increment.  Every thrown error leaves the store unchanged,
as in the source, where each `throw` happens before the save. -/
def createUrl (db : DB) (supply : List String) (now : Int) (originalUrl : String)
    (customAlias : Option String) (userId : Option Nat) (expiresIn : Option Int) :
    CreateResult × DB × List String :=
  if ¬ validateUrlFormat originalUrl then
    (.err (wrapCreateErr invalidUrlMsg), db, supply)
  else if maxUrlLength < originalUrl.length then
    (.err (wrapCreateErr urlTooLongMsg), db, supply)
  else if quotaHit db userId then
    (.err (wrapCreateErr quotaMsg), db, supply)
  else
    match (match userId with
           | some u => findActiveDup db originalUrl u
           | none => none) with
    | some existingUrl => (.ok existingUrl false, db, supply)
    | none =>
      match customAlias with
      | some aliasStr =>
        if ¬ allowCustomAlias then
          (.err (wrapCreateErr aliasNotAllowedMsg), db, supply)
        else if ¬ validateShortCode aliasStr then
          (.err (wrapCreateErr (invalidAliasMsg aliasStr)), db, supply)
        else if (findByCode db aliasStr).isSome then
          (.err (wrapCreateErr aliasTakenMsg), db, supply)
        else
          saveNewLink db supply now originalUrl customAlias userId expiresIn aliasStr
      | none =>
        match genUniqueShortCode db supply 10 with
        | none => (.err (wrapCreateErr genExhaustedMsg), db, supply)
        | some (code, supply') =>
          saveNewLink db supply' now originalUrl customAlias userId expiresIn code

/-- Replace the stored link with id `i` (a `url.save()` after mutation). -/
def storeLink (db : DB) (i : Nat) (l' : Link) : DB :=
  { db with links := db.links.map fun l => if l.id = i then l' else l }

/-- Service method `UrlService.getUrlByShortCode`: `findOne` over both namespaces filtered
to `isActive: true`; `null` when missing or when the `isExpired` virtual
holds; with `incrementView` the found link's `clickCount` is bumped and
saved. -/
def getUrlByShortCode (db : DB) (code : String) (incrementView : Bool) (now : Int) :
    Option Link × DB :=
  match db.links.find? (fun l =>
      (l.shortCode = code || l.customAlias = some code) && l.isActive) with
  | none => (none, db)
  | some url =>
    if isExpired now url then (none, db)
    else if incrementView then
      let url' := { url with clickCount := url.clickCount + 1 }
      (some url', storeLink db url.id url')
    else (some url, db)

/-- Result of `UrlService.deleteUrl`. -/
inductive DeleteResult where
  | ok
  | err (msg : String)
  deriving Repr, DecidableEq

/-- Service method `UrlService.deleteUrl(urlId, userId)`: `findOneAndDelete({ _id, userId })`
— the record is removed outright — then the owner's `urlCount` cache is
decremented.  The service takes no delete-mode parameter. -/
def serviceDeleteUrl (db : DB) (urlId : Nat) (userId : Nat) : DeleteResult × DB :=
  match db.links.find? (fun l => l.id = urlId && l.userId = some userId) with
  | none =>
    (.err "URL deletion failed: URL not found or you don't have permission to delete it", db)
  | some _ =>
    let db1 : DB :=
      { db with links := db.links.eraseP fun l => l.id = urlId && l.userId = some userId }
    (.ok, incUrlCount db1 userId (-1))

/-- The `deleteUrl` controller (`DELETE /api/urls/:id`): reads the
`hardDelete` query flag and calls `urlService.deleteUrl(id, userId,
hardDelete === "true")` — but the service's implementation accepts only
`(urlId, userId)`, so the flag is discarded. -/
def deleteUrlEndpoint (db : DB) (urlId : Nat) (userId : Nat) (hardDelete : Bool) :
    DeleteResult × DB :=
  serviceDeleteUrl db urlId userId

/-- The query object built by `UrlService.getPopularUrls`: `isActive: true`,
`clickCount: { $gte: minClicks }`, optional `userId`, and — when `days` is
truthy — `createdAt: { $gte: now - days·24h }`. -/
def popularQuery (now : Int) (userId : Option Nat) (days minClicks : Nat)
    (l : Link) : Bool :=
  l.isActive && decide (minClicks ≤ l.clickCount) &&
  (match userId with
   | some u => l.userId = some u
   | none => true) &&
  (if days = 0 then true else decide (now - (days : Int) * msPerDay ≤ l.createdAt))

/-- The sort order `{ clickCount: -1, createdAt: -1 }`: descending
click count, ties broken by descending creation time. -/
def popularRel (a b : Link) : Prop :=
  b.clickCount < a.clickCount ∨
  (a.clickCount = b.clickCount ∧ b.createdAt ≤ a.createdAt)

instance : DecidableRel popularRel := fun a b => by
  unfold popularRel; infer_instance

instance : IsTotal Link popularRel where
  total a b := by
    unfold popularRel
    rcases Nat.lt_trichotomy a.clickCount b.clickCount with h | h | h
    · exact Or.inr (Or.inl h)
    · rcases le_total b.createdAt a.createdAt with h' | h'
      · exact Or.inl (Or.inr ⟨h, h'⟩)
      · exact Or.inr (Or.inr ⟨h.symm, h'⟩)
    · exact Or.inl (Or.inl h)

instance : IsTrans Link popularRel where
  trans a b c hab hbc := by
    unfold popularRel at *
    rcases hab with h1 | ⟨h1, h1'⟩ <;> rcases hbc with h2 | ⟨h2, h2'⟩
    · exact Or.inl (h2.trans h1)
    · exact Or.inl (h2 ▸ h1)
    · exact Or.inl (h1 ▸ h2)
    · exact Or.inr ⟨h1.trans h2, h2'.trans h1'⟩

/-- Service method `UrlService.getPopularUrls`: `find(query).sort({ clickCount: -1,
createdAt: -1 }).limit(limit)`, with the stable sort modelled by
`List.insertionSort`. -/
def getPopularUrls (db : DB) (now : Int) (userId : Option Nat)
    (limit days minClicks : Nat) : List Link :=
  (List.insertionSort popularRel
      (db.links.filter (popularQuery now userId days minClicks))).take limit

/-- One entry of the `urlsData` array passed to `bulkCreateUrls`. -/
structure BulkItem where
  originalUrl : String
  customAlias : Option String := none
  deriving Repr, DecidableEq

/-- The accumulating `results` object of `bulkCreateUrls` (the parts the
verified claims read). -/
structure BulkResults where
  totalProcessed : Nat := 0
  successCount : Nat := 0
  errorCount : Nat := 0
  skippedCount : Nat := 0
  deriving Repr, DecidableEq

/-- The `for` loop of `bulkCreateUrls`: per item, the `skipDuplicates`
pre-check `findOne({ originalUrl, userId })` (no `isActive` filter), then a
`createUrl` call whose success bumps `successCount` and whose failure bumps
`errorCount` (stopping early when `stopOnError`). -/
def bulkLoop (userId : Nat) (now : Int) (skipDuplicates stopOnError : Bool) :
    List BulkItem → DB → List String → BulkResults →
    BulkResults × DB × List String
  | [], db, supply, acc => (acc, db, supply)
  | item :: rest, db, supply, acc =>
    let acc := { acc with totalProcessed := acc.totalProcessed + 1 }
    if skipDuplicates ∧
        (db.links.find? fun l =>
          l.originalUrl = item.originalUrl && l.userId = some userId).isSome then
      bulkLoop userId now skipDuplicates stopOnError rest db supply
        { acc with skippedCount := acc.skippedCount + 1 }
    else
      match createUrl db supply now item.originalUrl item.customAlias (some userId) none with
      | (.ok _ _, db', supply') =>
        bulkLoop userId now skipDuplicates stopOnError rest db' supply'
          { acc with successCount := acc.successCount + 1 }
      | (.err _, db', supply') =>
        let acc := { acc with errorCount := acc.errorCount + 1 }
        if stopOnError then (acc, db', supply')
        else bulkLoop userId now skipDuplicates stopOnError rest db' supply' acc

/-- Service method `UrlService.bulkCreateUrls`: it validates the batch size, runs the loop,
then — when anything succeeded — `$inc`s the owner's `urlCount` cache by
`successCount` once more (on top of the per-link increment already done
inside `createUrl`). -/
def bulkCreateUrls (db : DB) (supply : List String) (now : Int)
    (urlsData : List BulkItem) (userId : Nat)
    (skipDuplicates stopOnError : Bool) :
    Except String (BulkResults × DB × List String) :=
  if urlsData.length = 0 then
    .error "URLs data array is required"
  else if 100 < urlsData.length then
    .error "Maximum 100 URLs allowed per bulk request"
  else
    let (res, db', supply') :=
      bulkLoop userId now skipDuplicates stopOnError urlsData db supply {}
    let db'' := if 0 < res.successCount then incUrlCount db' userId res.successCount else db'
    .ok (res, db'', supply')

/-! ### Concrete stores used by counterexamples and witnesses -/

/-- An active link of user 1, as stored after a successful create. -/
def exLink : Link :=
  { id := 0, originalUrl := "https://a.com", shortCode := "abc0", userId := some 1 }

/-- A store in which user 1 owns 20 active links, one of them for
`https://a.com` — the owner sits exactly at the quota. -/
def quotaDB : DB :=
  { links := (List.range 20).map fun i =>
      { id := i, originalUrl := "https://a.com", shortCode := "abc0"
        userId := some 1 : Link }
    users := [{ id := 1, urlCount := 20 }]
    nextId := 20 }

/-- A store in which user 1 owns 19 active links for `https://a.com` — one
below the quota, with an active duplicate present. -/
def dup19DB : DB :=
  { links := (List.range 19).map fun i =>
      { id := i, originalUrl := "https://a.com", shortCode := "abc0"
        userId := some 1 : Link }
    users := [{ id := 1, urlCount := 19 }]
    nextId := 19 }

/-- A store with a single active link owned by user 1 (delete scenarios). -/
def c3DB : DB :=
  { links := [exLink], users := [{ id := 1, urlCount := 1 }], nextId := 1 }

/-- User 2's link whose short code is the alias `launch`. -/
def launchLink : Link :=
  { id := 1, originalUrl := "https://b.com", shortCode := "launch", userId := some 2 }

/-- A store where user 1 has an active link for `https://a.com` and the
alias `launch` is already taken by user 2's link. -/
def c4DB : DB :=
  { links := [exLink, launchLink]
    users := [{ id := 1, urlCount := 1 }, { id := 2, urlCount := 1 }]
    nextId := 2 }

/-- An active link created recently whose last recorded click is far older
than any popularity window. -/
def staleClickLink : Link :=
  { id := 0, originalUrl := "https://a.com", shortCode := "abc0"
    clickCount := 5, lastClickedAt := some 0, createdAt := 8640000000 }

/-- Store for the popularity counterexample. -/
def c9DB : DB := { links := [staleClickLink], users := [], nextId := 1 }

/-- Empty store with one registered user (bulk-creation scenario). -/
def c10DB : DB := { links := [], users := [{ id := 1, urlCount := 0 }], nextId := 0 }

/-- The bulk batch: two distinct URLs, no aliases. -/
def c10Items : List BulkItem :=
  [{ originalUrl := "https://a.com" }, { originalUrl := "https://b.com" }]

end SnapURL

namespace SnapURL

/-! ## Helper lemmas -/

/-- JS `Math.round` (= Mathlib `round` on `ℚ`) is monotone. -/
theorem round_mono_q {x y : ℚ} (h : x ≤ y) : round x ≤ round y := by
  rw [round_eq, round_eq]
  exact Int.floor_le_floor (by linarith)

/-- A link returned by `createUrl` passed the URL-format, length and quota
guards. -/
theorem createUrl_ok_guards {db : DB} {supply : List String} {now : Int}
    {o : String} {ca : Option String} {uid : Option Nat} {e : Option Int}
    {l : Link} {b : Bool} {db' : DB} {s' : List String}
    (h : createUrl db supply now o ca uid e = (.ok l b, db', s')) :
    validateUrlFormat o = true ∧ o.length ≤ maxUrlLength ∧
    quotaHit db uid = false := by
  unfold createUrl at h
  split at h
  · simp at h
  · split at h
    · simp at h
    · split at h
      · simp at h
      · refine ⟨by simp_all, by omega, by simp_all⟩

/-- When `createUrl` throws, the store and the code supply are untouched. -/
theorem createUrl_err_state {db : DB} {supply : List String} {now : Int}
    {o : String} {ca : Option String} {uid : Option Nat} {e : Option Int}
    {m : String} {db' : DB} {s' : List String}
    (h : createUrl db supply now o ca uid e = (.err m, db', s')) :
    db' = db ∧ s' = supply := by
  unfold createUrl at h
  split at h
  · exact ⟨congrArg (·.2.1) h.symm, congrArg (·.2.2) h.symm⟩
  · split at h
    · exact ⟨congrArg (·.2.1) h.symm, congrArg (·.2.2) h.symm⟩
    · split at h
      · exact ⟨congrArg (·.2.1) h.symm, congrArg (·.2.2) h.symm⟩
      · split at h
        · simp at h
        · split at h
          · split at h
            · exact ⟨congrArg (·.2.1) h.symm, congrArg (·.2.2) h.symm⟩
            · split at h
              · exact ⟨congrArg (·.2.1) h.symm, congrArg (·.2.2) h.symm⟩
              · split at h
                · exact ⟨congrArg (·.2.1) h.symm, congrArg (·.2.2) h.symm⟩
                · simp [saveNewLink] at h
          · split at h
            · exact ⟨congrArg (·.2.1) h.symm, congrArg (·.2.2) h.symm⟩
            · simp [saveNewLink] at h

/-- A `createUrl` call that reports `isNew = true` appended exactly one
fresh, active document carrying the requested `originalUrl` and owner, and
bumped the owner's `urlCount` cache. -/
theorem createUrl_ok_new {db : DB} {supply : List String} {now : Int}
    {o : String} {ca : Option String} {u : Nat} {e : Option Int}
    {l : Link} {db' : DB} {s' : List String}
    (h : createUrl db supply now o ca (some u) e = (.ok l true, db', s')) :
    l.originalUrl = o ∧ l.userId = some u ∧ l.isActive = true ∧
    db'.links = db.links ++ [l] ∧
    db'.users = db.users.map (fun usr =>
      if usr.id = u then { usr with urlCount := usr.urlCount + 1 } else usr) := by
  unfold createUrl at h
  split at h
  · simp at h
  · split at h
    · simp at h
    · split at h
      · simp at h
      · split at h
        · simp at h
        · split at h
          · split at h
            · simp at h
            · split at h
              · simp at h
              · split at h
                · simp at h
                · simp only [saveNewLink, incUrlCount, Prod.mk.injEq,
                    CreateResult.ok.injEq] at h
                  obtain ⟨⟨hl, -⟩, hdb, -⟩ := h
                  subst hl hdb
                  exact ⟨rfl, rfl, rfl, rfl, rfl⟩
          · split at h
            · simp at h
            · simp only [saveNewLink, incUrlCount, Prod.mk.injEq,
                CreateResult.ok.injEq] at h
              obtain ⟨⟨hl, -⟩, hdb, -⟩ := h
              subst hl hdb
              exact ⟨rfl, rfl, rfl, rfl, rfl⟩

/-- An `isNew = false` result comes only from the duplicate check: the
returned link is the stored `(originalUrl, owner)` duplicate and nothing
changed. -/
theorem createUrl_ok_dup {db : DB} {supply : List String} {now : Int}
    {o : String} {ca : Option String} {uid : Option Nat} {e : Option Int}
    {l : Link} {db' : DB} {s' : List String}
    (h : createUrl db supply now o ca uid e = (.ok l false, db', s')) :
    ∃ u, uid = some u ∧ findActiveDup db o u = some l ∧ db' = db ∧ s' = supply := by
  unfold createUrl at h
  split at h
  · simp at h
  · split at h
    · simp at h
    · split at h
      · simp at h
      · split at h
        · rename_i heq
          cases huid : uid with
          | none => rw [huid] at heq; simp at heq
          | some u =>
            rw [huid] at heq
            simp only [Prod.mk.injEq, CreateResult.ok.injEq] at h
            obtain ⟨⟨hl, -⟩, hdb, hs⟩ := h
            exact ⟨u, rfl, hl ▸ heq, hdb.symm, hs.symm⟩
        · split at h
          · split at h
            · simp at h
            · split at h
              · simp at h
              · split at h
                · simp at h
                · simp [saveNewLink] at h
          · split at h
            · simp at h
            · simp [saveNewLink] at h

/-- If no document at all has this `(originalUrl, owner)` pair (the
`skipDuplicates` pre-check), the active-duplicate check finds nothing. -/
theorem findActiveDup_none_of_precheck {db : DB} {o : String} {u : Nat}
    (h : (db.links.find? fun l => l.originalUrl = o && l.userId = some u) = none) :
    findActiveDup db o u = none := by
  unfold findActiveDup
  rw [List.find?_eq_none] at h ⊢
  intro l hl
  have := h l hl
  simp only [Bool.and_eq_true, decide_eq_true_eq] at this ⊢
  tauto

/-- Effect of `$inc` on the stored user list. -/
theorem incUrlCount_users (db : DB) (u : Nat) (d : Int) :
    (incUrlCount db u d).users = db.users.map (fun usr =>
      if usr.id = u then { usr with urlCount := usr.urlCount + d } else usr) := rfl

/-- Looking a user up after a `$inc` map finds the bumped document. -/
theorem find?_bump (us : List User) (u : Nat) (d : Int) :
    (us.map (fun usr =>
        if usr.id = u then { usr with urlCount := usr.urlCount + d } else usr)).find?
      (fun usr => decide (usr.id = u)) =
    (us.find? (fun usr => decide (usr.id = u))).map
      (fun usr => { usr with urlCount := usr.urlCount + d }) := by
  induction us with
  | nil => rfl
  | cons usr rest ih =>
    by_cases hid : usr.id = u
    · simp [List.find?_cons, hid]
    · simp [List.find?_cons, hid, ih]

/-- An `$inc` on the `urlCount` cache of a present user adds exactly `d`. -/
theorem getUrlCount_inc {db : DB} {u : Nat} (d : Int)
    (hu : userPresent db u = true) :
    getUrlCount (incUrlCount db u d) u = getUrlCount db u + d := by
  unfold getUrlCount
  rw [incUrlCount_users, find?_bump]
  unfold userPresent at hu
  cases hfind : db.users.find? (fun usr => decide (usr.id = u)) with
  | none => rw [hfind] at hu; simp at hu
  | some usr => simp

/-- An `$inc` does not create or remove user documents. -/
theorem userPresent_inc (db : DB) (u : Nat) (d : Int) :
    userPresent (incUrlCount db u d) u = userPresent db u := by
  unfold userPresent
  rw [incUrlCount_users, find?_bump]
  cases db.users.find? (fun usr => decide (usr.id = u)) <;> rfl

/-! ## Claim theorems -/

/-- C2: `getUrlByShortCode` looks a code up in both the `shortCode` and the
`customAlias` namespace and yields not-found (`none`) whenever every link
matching the code is inactive or past its `expiresAt`; a reachable first
match is returned.  Deactivation and expiry are indistinguishable in the
result: both land in the same `none`. -/
theorem C2_resolve_unreachable (db : DB) (code : String) (now : Int) :
    ((∀ l ∈ db.links, (l.shortCode = code ∨ l.customAlias = some code) →
        (l.isActive = false ∨ isExpired now l = true)) →
      (getUrlByShortCode db code false now).1 = none) ∧
    (∀ l, db.links.find? (fun l =>
        (l.shortCode = code || l.customAlias = some code) && l.isActive) = some l →
      isExpired now l = false →
      (getUrlByShortCode db code false now).1 = some l) := by
  constructor
  · intro h
    unfold getUrlByShortCode
    cases hf : db.links.find? (fun l =>
        (l.shortCode = code || l.customAlias = some code) && l.isActive) with
    | none => rfl
    | some url =>
      have hp := List.find?_some hf
      have hm := List.mem_of_find?_eq_some hf
      simp only [Bool.and_eq_true, Bool.or_eq_true, decide_eq_true_eq] at hp
      rcases h url hm hp.1 with hIn | hExp
      · rw [hp.2] at hIn; cases hIn
      · simp [hExp]
  · intro l hf hexp
    unfold getUrlByShortCode
    rw [hf]
    simp [hexp]

/-- C2 witness: in a store holding one inactive link and one link reachable
only through its custom alias, the inactive code resolves to `none` and the
alias resolves to its link. -/
theorem C2_resolve_unreachable_witness :
    (getUrlByShortCode
      { links := [{ id := 0, originalUrl := "https://a.com", shortCode := "dead0"
                    isActive := false }]
        users := [], nextId := 1 } "dead0" false 0).1 = none ∧
    (getUrlByShortCode
      { links := [{ id := 1, originalUrl := "https://b.com", shortCode := "live0"
                    customAlias := some "mylink" }]
        users := [], nextId := 2 } "mylink" false 0).1 =
      some { id := 1, originalUrl := "https://b.com", shortCode := "live0"
             customAlias := some "mylink" } := by
  constructor
  · exact (C2_resolve_unreachable _ "dead0" 0).1 (by decide)
  · exact (C2_resolve_unreachable _ "mylink" 0).2 _ (by decide) (by decide)

/-- C3: the claim says `delete(id, ownerId, hard=false)` soft-deletes
(keeps the record with `isActive := false`).  The code does not: the
controller forwards the `hardDelete` flag, but `UrlService.deleteUrl`
ignores it and runs `findOneAndDelete` unconditionally, so with
`hardDelete = false` the record is removed all the same, identically to
`hardDelete = true`; the owner's `urlCount` cache is decremented. -/
theorem C3_soft_delete_is_hard :
    (deleteUrlEndpoint c3DB 0 1 false).2.links = [] ∧
    deleteUrlEndpoint c3DB 0 1 false = deleteUrlEndpoint c3DB 0 1 true ∧
    (deleteUrlEndpoint c3DB 0 1 false).1 = DeleteResult.ok ∧
    getUrlCount (deleteUrlEndpoint c3DB 0 1 false).2 1 = 0 := by decide

/-- C5: an authenticated owner holding 20 or more active links gets the
quota error — whose message states the limit of 20 — and the store is
untouched. -/
theorem C5_quota_error (db : DB) (supply : List String) (now : Int)
    (o : String) (ca : Option String) (u : Nat) (e : Option Int)
    (hv : validateUrlFormat o = true) (hlen : o.length ≤ maxUrlLength)
    (hq : 20 ≤ countActiveLinks db u) :
    createUrl db supply now o ca (some u) e =
      (.err (wrapCreateErr quotaMsg), db, supply) ∧
    "20".data <:+: (wrapCreateErr quotaMsg).data := by
  refine ⟨?_, by decide⟩
  unfold createUrl
  rw [if_neg (by simp [hv]), if_neg (by omega),
    if_pos (show quotaHit db (some u) = true by
      simp only [quotaHit, decide_eq_true_eq]; omega)]

/-- C5 witness: user 1 owns 20 active links in `quotaDB`; a fresh create
request fails with the quota message. -/
theorem C5_quota_error_witness :
    createUrl quotaDB ["zzz0"] 0 "https://c.com" none (some 1) none =
      (.err (wrapCreateErr quotaMsg), quotaDB, ["zzz0"]) ∧
    "20".data <:+: (wrapCreateErr quotaMsg).data :=
  C5_quota_error quotaDB ["zzz0"] 0 "https://c.com" none 1 none
    (by decide) (by decide) (by decide)

/-- C6: over any sequence of recorded clicks and view increments,
`uniqueClicks ≤ clickCount` is preserved, both counters are non-decreasing
at every step, and `recordClick` adds exactly 1 to `clickCount` and 1 to
`uniqueClicks` iff the click is unique. -/
theorem C6_counter_monotonicity (l : Link) (ops : List ClickOp) :
    (l.uniqueClicks ≤ l.clickCount →
      (ops.foldl applyClickOp l).uniqueClicks ≤ (ops.foldl applyClickOp l).clickCount) ∧
    (∀ op : ClickOp, l.clickCount ≤ (applyClickOp l op).clickCount ∧
      l.uniqueClicks ≤ (applyClickOp l op).uniqueClicks) ∧
    (∀ (now : Int) (isUnique : Bool),
      (recordClick l now isUnique).clickCount = l.clickCount + 1 ∧
      (recordClick l now isUnique).uniqueClicks =
        l.uniqueClicks + (if isUnique then 1 else 0)) := by
  refine ⟨?_, ?_, ?_⟩
  · intro h
    induction ops generalizing l with
    | nil => exact h
    | cons op rest ih =>
      simp only [List.foldl_cons]
      apply ih
      cases op with
      | record now isUnique =>
        cases isUnique <;> simp [applyClickOp, recordClick] <;> omega
      | view => simp [applyClickOp]; omega
  · intro op
    cases op with
    | record now isUnique =>
      cases isUnique <;> simp [applyClickOp, recordClick]
    | view => simp [applyClickOp]
  · intro now isUnique
    cases isUnique <;> simp [recordClick]

/-- C6 witness: three operations on a fresh link (unique click, view,
non-unique click) keep `uniqueClicks ≤ clickCount`, and one unique
`recordClick` bumps both counters by 1. -/
theorem C6_counter_monotonicity_witness :
    (([ClickOp.record 5 true, ClickOp.view, ClickOp.record 9 false].foldl
        applyClickOp exLink).uniqueClicks ≤
      ([ClickOp.record 5 true, ClickOp.view, ClickOp.record 9 false].foldl
        applyClickOp exLink).clickCount) ∧
    (recordClick exLink 5 true).clickCount = exLink.clickCount + 1 ∧
    (recordClick exLink 5 true).uniqueClicks = exLink.uniqueClicks + 1 := by
  refine ⟨?_, ?_, ?_⟩
  · exact (C6_counter_monotonicity exLink
      [ClickOp.record 5 true, ClickOp.view, ClickOp.record 9 false]).1 (by decide)
  · exact ((C6_counter_monotonicity exLink []).2.2 5 true).1
  · exact ((C6_counter_monotonicity exLink []).2.2 5 true).2

/-- C7: the click-through-rate virtual is 0 when `clickCount = 0` and,
whenever `uniqueClicks ≤ clickCount` (the counter invariant), lies in
`[0, 100]` — there is no division-by-zero artifact. -/
theorem C7_ctr_bounds (c u : Nat) :
    (c = 0 → clickThroughRate c u = 0) ∧
    (u ≤ c → 0 ≤ clickThroughRate c u ∧ clickThroughRate c u ≤ 100) := by
  constructor
  · intro h; simp [clickThroughRate, h]
  · intro h
    rcases Nat.eq_zero_or_pos c with hc | hc
    · subst hc; simp [clickThroughRate]
    · have hc0 : c ≠ 0 := Nat.pos_iff_ne_zero.mp hc
      have hcq : (0:ℚ) < (c:ℚ) := by exact_mod_cast hc
      have hx0 : (0:ℚ) ≤ (u:ℚ)/(c:ℚ) * 100 * 100 := by positivity
      have hx1 : (u:ℚ)/(c:ℚ) * 100 * 100 ≤ 10000 := by
        have h1 : (u:ℚ)/(c:ℚ) ≤ 1 := by
          rw [div_le_one hcq]; exact_mod_cast h
        nlinarith
      have hr0 : (0:ℤ) ≤ round ((u:ℚ)/(c:ℚ) * 100 * 100) := by
        have hm := round_mono_q hx0
        simpa using hm
      have hr1 : round ((u:ℚ)/(c:ℚ) * 100 * 100) ≤ 10000 := by
        have hm := round_mono_q hx1
        have h2 : round (10000:ℚ) = 10000 := by
          rw [show (10000:ℚ) = ((10000:ℤ):ℚ) by norm_num, round_intCast]
        linarith [h2 ▸ hm]
      unfold clickThroughRate
      rw [if_neg hc0]
      constructor
      · exact div_nonneg (by exact_mod_cast hr0) (by norm_num)
      · rw [div_le_iff₀ (by norm_num : (0:ℚ) < 100)]
        calc ((round ((u:ℚ)/(c:ℚ) * 100 * 100) : ℤ) : ℚ)
            ≤ 10000 := by exact_mod_cast hr1
          _ = 100 * 100 := by norm_num

/-- C7 witness: the bounds at `clickCount = 3, uniqueClicks = 2`, and the
zero case at `clickCount = 0`. -/
theorem C7_ctr_bounds_witness :
    clickThroughRate 0 0 = 0 ∧
    (0 ≤ clickThroughRate 3 2 ∧ clickThroughRate 3 2 ≤ 100) :=
  ⟨(C7_ctr_bounds 0 0).1 rfl, (C7_ctr_bounds 3 2).2 (by decide)⟩

/-- C8 counterexample: `ab-c` consists only of `[A-Za-z0-9_-]` characters
and has length between 3 and 30, yet the Joi rule guarding the create
route's input rejects it (`alphanum` admits letters and digits only), so
the claim that every such alias passes the create operation's input
validation is false. -/
theorem C8_counterexample :
    ("ab-c".data.all shortCodeChar = true ∧ 3 ≤ "ab-c".length ∧ "ab-c".length ≤ 30) ∧
    joiCustomAliasValid "ab-c" = false := by decide

/-- C8 amended: the route-level Joi validation accepts exactly the
alphanumeric aliases of length 3–30 (aliases containing `-` or `_` are
rejected as invalid input there), while the service-level
`validateShortCode` does accept the full `[A-Za-z0-9_-]` charset at
those lengths. -/
theorem C8_amended (s : String) :
    (joiCustomAliasValid s = true ↔
      (s.data.all Char.isAlphanum = true ∧ 3 ≤ s.length ∧ s.length ≤ 30)) ∧
    (s.data.all shortCodeChar = true → 3 ≤ s.length → s.length ≤ 30 →
      validateShortCode s = true) := by
  constructor
  · unfold joiCustomAliasValid
    simp [and_assoc]
  · intro hchar h3 h30
    unfold validateShortCode validateShortCodeErrors
    rw [if_neg (by omega), if_neg (by omega), if_neg (by omega), if_pos hchar]
    simp

/-- C8 witness: `abc1` passes the Joi rule, and the hyphenated `ab-c`
passes the service-level short-code validation. -/
theorem C8_amended_witness :
    joiCustomAliasValid "abc1" = true ∧ validateShortCode "ab-c" = true :=
  ⟨(C8_amended "abc1").1.mpr (by decide),
   (C8_amended "ab-c").2 (by decide) (by decide) (by decide)⟩

set_option maxRecDepth 8192 in
/-- C1 counterexample: the quota guard runs before the duplicate check, so
an owner holding 20 active links — one of them an active duplicate of the
requested `originalUrl` — receives the quota error instead of the existing
link with `isNew = false`.  The claim as stated (for every authenticated
owner) is therefore false. -/
theorem C1_counterexample :
    (findActiveDup quotaDB "https://a.com" 1).isSome = true ∧
    createUrl quotaDB ["zzz0"] 0 "https://a.com" none (some 1) none =
      (.err (wrapCreateErr quotaMsg), quotaDB, ["zzz0"]) := by decide

/-- C1 amended: provided the owner is below the 20-active-link quota at each
call, creation is duplicate-idempotent: an existing active
`(originalUrl, ownerId)` link is returned as-is with `isNew = false` and no
record is created, and two identical calls return the same link id — the
second with `isNew = false`. -/
theorem C1_amended_dedup (db : DB) (supply : List String) (now : Int)
    (o : String) (ca : Option String) (u : Nat) (e : Option Int)
    (hv : validateUrlFormat o = true) (hlen : o.length ≤ maxUrlLength)
    (hq : countActiveLinks db u < 20) :
    (∀ l, findActiveDup db o u = some l →
      createUrl db supply now o ca (some u) e = (.ok l false, db, supply)) ∧
    (∀ l₁ db₁ s₁, findActiveDup db o u = none →
      createUrl db supply now o ca (some u) e = (.ok l₁ true, db₁, s₁) →
      countActiveLinks db₁ u < 20 →
      ∀ (supply' : List String) (now' : Int) (ca' : Option String) (e' : Option Int),
        createUrl db₁ supply' now' o ca' (some u) e' = (.ok l₁ false, db₁, supply')) := by
  constructor
  · intro l hdup
    unfold createUrl
    rw [if_neg (by simp [hv]), if_neg (by omega),
      if_neg (show ¬ quotaHit db (some u) = true by
        simp only [quotaHit, decide_eq_true_eq]; omega)]
    dsimp only
    rw [hdup]
  · intro l₁ db₁ s₁ hdup0 h₁ hq1 supply' now' ca' e'
    obtain ⟨ho, hu, hact, hlinks, -⟩ := createUrl_ok_new h₁
    have hdup1 : findActiveDup db₁ o u = some l₁ := by
      unfold findActiveDup at hdup0 ⊢
      rw [hlinks, List.find?_append, hdup0]
      simp [List.find?, ho, hu, hact]
    unfold createUrl
    rw [if_neg (by simp [hv]), if_neg (by omega),
      if_neg (show ¬ quotaHit db₁ (some u) = true by
        simp only [quotaHit, decide_eq_true_eq]; omega)]
    dsimp only
    rw [hdup1]

/-- C1 witness: in `dup19DB` (19 active links, duplicate present, below
quota) a create call returns the stored duplicate with `isNew = false`;
and on the empty store `c10DB` two identical calls return the same link,
the first with `isNew = true`, the second with `isNew = false`. -/
theorem C1_amended_dedup_witness :
    (∃ l, findActiveDup dup19DB "https://a.com" 1 = some l ∧
      createUrl dup19DB ["zzz0"] 0 "https://a.com" none (some 1) none =
        (.ok l false, dup19DB, ["zzz0"])) ∧
    (∃ l₁ db₁ s₁,
      createUrl c10DB ["zzz0"] 5 "https://a.com" none (some 1) none =
        (.ok l₁ true, db₁, s₁) ∧
      createUrl db₁ ["zzz1"] 9 "https://a.com" none (some 1) none =
        (.ok l₁ false, db₁, ["zzz1"])) := by
  constructor
  · refine ⟨_, rfl, ?_⟩
    exact (C1_amended_dedup dup19DB ["zzz0"] 0 "https://a.com" none 1 none
      (by decide) (by decide) (by decide)).1 _ rfl
  · refine ⟨_, _, _, rfl, ?_⟩
    exact (C1_amended_dedup c10DB ["zzz0"] 5 "https://a.com" none 1 none
      (by decide) (by decide) (by decide)).2 _ _ _ (by decide) rfl (by decide)
      ["zzz1"] 9 none none

/-- C4 counterexample: the duplicate check runs before the alias checks, so
a request whose `customAlias` (`launch`) is already taken but whose
`(originalUrl, ownerId)` matches an existing active link returns that link
with `isNew = false` instead of failing with the alias-taken conflict.  The
claim as stated (for every create request carrying a `customAlias`) is
therefore false. -/
theorem C4_counterexample :
    findByCode c4DB "launch" = some launchLink ∧
    createUrl c4DB ["zzz0"] 0 "https://a.com" (some "launch") (some 1) none =
      (.ok exLink false, c4DB, ["zzz0"]) := by decide

/-- C4 amended: for a create request carrying a `customAlias` that is not
deduplicated away (no active link with the same `(originalUrl, ownerId)`)
and does not hit the quota: a malformed alias fails with the invalid-alias
error, a well-formed alias already present as some link's `shortCode` or
`customAlias` fails with the alias-taken conflict — even when the new
request's `originalUrl` differs — and in both cases the store is
unchanged. -/
theorem C4_amended (db : DB) (supply : List String) (now : Int)
    (o a : String) (uid : Option Nat) (e : Option Int)
    (hv : validateUrlFormat o = true) (hlen : o.length ≤ maxUrlLength)
    (hq : quotaHit db uid = false)
    (hnodup : ∀ u, uid = some u → findActiveDup db o u = none) :
    (validateShortCode a = false →
      createUrl db supply now o (some a) uid e =
        (.err (wrapCreateErr (invalidAliasMsg a)), db, supply)) ∧
    (validateShortCode a = true → ∀ l, findByCode db a = some l →
      createUrl db supply now o (some a) uid e =
        (.err (wrapCreateErr aliasTakenMsg), db, supply)) := by
  constructor
  · intro hbad
    unfold createUrl
    rw [if_neg (by simp [hv]), if_neg (by omega), if_neg (by simp [hq])]
    cases uid with
    | none =>
      dsimp only
      rw [if_neg (by decide), if_pos (by simp [hbad])]
    | some u =>
      dsimp only
      rw [hnodup u rfl]
      dsimp only
      rw [if_neg (by decide), if_pos (by simp [hbad])]
  · intro hgood l htaken
    unfold createUrl
    rw [if_neg (by simp [hv]), if_neg (by omega), if_neg (by simp [hq])]
    cases uid with
    | none =>
      dsimp only
      rw [if_neg (by decide), if_neg (by simp [hgood]), if_pos (by simp [htaken])]
    | some u =>
      dsimp only
      rw [hnodup u rfl]
      dsimp only
      rw [if_neg (by decide), if_neg (by simp [hgood]), if_pos (by simp [htaken])]

/-- C4 witness: on `c4DB` with the fresh URL `https://c.com` (so no
dedup), the malformed alias `x!` yields the invalid-alias error and the
taken alias `launch` yields the conflict; the store stays as it was. -/
theorem C4_amended_witness :
    createUrl c4DB ["zzz0"] 0 "https://c.com" (some "x!") (some 1) none =
      (.err (wrapCreateErr (invalidAliasMsg "x!")), c4DB, ["zzz0"]) ∧
    createUrl c4DB ["zzz0"] 0 "https://c.com" (some "launch") (some 1) none =
      (.err (wrapCreateErr aliasTakenMsg), c4DB, ["zzz0"]) := by
  constructor
  · exact (C4_amended c4DB ["zzz0"] 0 "https://c.com" "x!" (some 1) none
      (by decide) (by decide) (by decide)
      (by intro u hu; cases hu; decide)).1 (by decide)
  · exact (C4_amended c4DB ["zzz0"] 0 "https://c.com" "launch" (some 1) none
      (by decide) (by decide) (by decide)
      (by intro u hu; cases hu; decide)).2 (by decide) _ rfl

/-- An `$inc` touches only the user collection. -/
theorem incUrlCount_links (db : DB) (u : Nat) (d : Int) :
    (incUrlCount db u d).links = db.links := rfl

/-- Reading `getUrlCount` depends only on the user collection. -/
theorem getUrlCount_eq_of_users {db₁ db₂ : DB} (h : db₁.users = db₂.users)
    (u : Nat) : getUrlCount db₁ u = getUrlCount db₂ u := by
  unfold getUrlCount; rw [h]

/-- Reading `userPresent` depends only on the user collection. -/
theorem userPresent_eq_of_users {db₁ db₂ : DB} (h : db₁.users = db₂.users)
    (u : Nat) : userPresent db₁ u = userPresent db₂ u := by
  unfold userPresent; rw [h]

/-- C9 counterexample: `getPopularUrls` filters on `createdAt`, not on
click recency: a link created within the window whose *last click* is far
older than the window is still returned, so the claim that only links with
recent-click recency in the last `days` days are returned is false. -/
theorem C9_counterexample :
    getPopularUrls c9DB 8640000000 none 10 30 1 = [staleClickLink] ∧
    staleClickLink.lastClickedAt = some 0 ∧
    ((0 : Int) < 8640000000 - 30 * msPerDay) := by decide

/-- C9 amended: for `days ≠ 0`, the popular-URLs query returns only active
links with `clickCount ≥ minClicks` whose *creation time* lies within the
last `days` days (and matching the owner when one is given), sorted
descending by `clickCount` with ties broken by descending `createdAt`, and
truncated to `limit` results. -/
theorem C9_amended (db : DB) (now : Int) (uid : Option Nat)
    (limit days minClicks : Nat) (hd : days ≠ 0) :
    (∀ l ∈ getPopularUrls db now uid limit days minClicks,
      l.isActive = true ∧ minClicks ≤ l.clickCount ∧
      now - (days : Int) * msPerDay ≤ l.createdAt ∧
      (∀ u, uid = some u → l.userId = some u)) ∧
    (getPopularUrls db now uid limit days minClicks).length ≤ limit ∧
    List.Sorted popularRel (getPopularUrls db now uid limit days minClicks) := by
  refine ⟨?_, ?_, ?_⟩
  · intro l hl
    unfold getPopularUrls at hl
    have hl1 : l ∈ List.insertionSort popularRel
        (db.links.filter (popularQuery now uid days minClicks)) :=
      List.mem_of_mem_take hl
    rw [List.mem_insertionSort] at hl1
    have hq := List.of_mem_filter hl1
    simp only [popularQuery, Bool.and_eq_true, decide_eq_true_eq] at hq
    obtain ⟨⟨⟨hact, hclicks⟩, huid⟩, hdate⟩ := hq
    refine ⟨hact, hclicks, ?_, ?_⟩
    · rw [if_neg hd] at hdate
      simpa using hdate
    · intro v hv
      subst hv
      simpa using huid
  · unfold getPopularUrls
    rw [List.length_take]
    exact min_le_left _ _
  · unfold getPopularUrls
    exact List.Pairwise.sublist (List.take_sublist _ _)
      (List.sorted_insertionSort popularRel _)

/-- C9 witness: on the one-link store the query returns the link (which
indeed satisfies all filter conditions), respects the limit and is sorted. -/
theorem C9_amended_witness :
    (∀ l ∈ getPopularUrls c9DB 8640000000 none 10 30 1,
      l.isActive = true ∧ 1 ≤ l.clickCount ∧
      8640000000 - ((30 : Nat) : Int) * msPerDay ≤ l.createdAt ∧
      (∀ u, (none : Option Nat) = some u → l.userId = some u)) ∧
    (getPopularUrls c9DB 8640000000 none 10 30 1).length ≤ 10 ∧
    List.Sorted popularRel (getPopularUrls c9DB 8640000000 none 10 30 1) :=
  C9_amended c9DB 8640000000 none 10 30 1 (by decide)

/-- Invariant of the bulk-creation loop with `skipDuplicates = true`: some
`d` links are appended, `successCount` grows by the same `d`, and the
owner's `urlCount` cache grows by `d` (one increment per `createUrl`). -/
theorem bulkLoop_spec (u : Nat) (now : Int) (stopE : Bool) :
    ∀ (items : List BulkItem) (db : DB) (supply : List String)
      (acc : BulkResults), userPresent db u = true →
    ∃ d : Nat,
      (bulkLoop u now true stopE items db supply acc).1.successCount
        = acc.successCount + d ∧
      (bulkLoop u now true stopE items db supply acc).2.1.links.length
        = db.links.length + d ∧
      getUrlCount (bulkLoop u now true stopE items db supply acc).2.1 u
        = getUrlCount db u + d ∧
      userPresent (bulkLoop u now true stopE items db supply acc).2.1 u = true := by
  intro items
  induction items with
  | nil =>
    intro db supply acc hu
    exact ⟨0, by simp [bulkLoop], by simp [bulkLoop], by simp [bulkLoop],
      by simpa [bulkLoop] using hu⟩
  | cons item rest ih =>
    intro db supply acc hu
    simp only [bulkLoop]
    by_cases hskip :
        (db.links.find? fun l =>
          l.originalUrl = item.originalUrl && l.userId = some u).isSome = true
    · rw [if_pos ⟨trivial, hskip⟩]
      obtain ⟨d, h1, h2, h3, h4⟩ := ih db supply
        { acc with
          totalProcessed := acc.totalProcessed + 1
          skippedCount := acc.skippedCount + 1 } hu
      exact ⟨d, by simpa using h1, h2, h3, h4⟩
    · rw [if_neg (fun hcon => hskip hcon.2)]
      rcases hc : createUrl db supply now item.originalUrl item.customAlias
          (some u) none with ⟨r, db', s'⟩
      cases r with
      | ok l isNew =>
        cases isNew with
        | false =>
          obtain ⟨v, hv, hdup, -, -⟩ := createUrl_ok_dup hc
          injection hv with hv'
          subst hv'
          exfalso
          apply hskip
          rw [List.find?_isSome]
          refine ⟨l, List.mem_of_find?_eq_some hdup, ?_⟩
          have hp := List.find?_some hdup
          simp only [Bool.and_eq_true, decide_eq_true_eq] at hp ⊢
          exact ⟨hp.1.1, hp.1.2⟩
        | true =>
          obtain ⟨-, -, -, hlinks, husers⟩ := createUrl_ok_new hc
          dsimp only
          have husers' : db'.users = (incUrlCount db u 1).users := by
            rw [husers, incUrlCount_users]
          have hu' : userPresent db' u = true := by
            rw [userPresent_eq_of_users husers', userPresent_inc]
            exact hu
          obtain ⟨d, h1, h2, h3, h4⟩ := ih db' s'
            { acc with
              totalProcessed := acc.totalProcessed + 1
              successCount := acc.successCount + 1 } hu'
          refine ⟨d + 1, ?_, ?_, ?_, h4⟩
          · rw [h1]
            show acc.successCount + 1 + d = acc.successCount + (d + 1)
            omega
          · rw [h2, hlinks]
            simp only [List.length_append, List.length_cons, List.length_nil]
            omega
          · rw [h3, getUrlCount_eq_of_users husers' u, getUrlCount_inc 1 hu]
            push_cast
            ring
      | err m =>
        obtain ⟨rfl, rfl⟩ := createUrl_err_state hc
        dsimp only
        cases stopE with
        | true =>
          exact ⟨0, by simp, by simp, by simp, by simpa using hu⟩
        | false =>
          obtain ⟨d, h1, h2, h3, h4⟩ := ih db' s'
            { acc with
              totalProcessed := acc.totalProcessed + 1
              errorCount := acc.errorCount + 1 } hu
          exact ⟨d, by simpa using h1, by simpa using h2,
            by simpa using h3, h4⟩

/-- C10: with `skipDuplicates = true`, a bulk creation that reports
`successCount = k` appends exactly `k` links but adds `2·k` to the owner's
`urlCount` cache: `createUrl` already incremented it once per created link
and the bulk wrapper adds `successCount` again, so after a bulk creation
the cache exceeds the number of links actually created. -/
theorem C10_bulk_double_count (db : DB) (supply : List String) (now : Int)
    (items : List BulkItem) (u : Nat) (stopE : Bool)
    (hu : userPresent db u = true)
    (res : BulkResults) (db' : DB) (s' : List String)
    (h : bulkCreateUrls db supply now items u true stopE = .ok (res, db', s')) :
    getUrlCount db' u = getUrlCount db u + 2 * res.successCount ∧
    db'.links.length = db.links.length + res.successCount := by
  unfold bulkCreateUrls at h
  split at h
  · simp at h
  · split at h
    · simp at h
    · obtain ⟨d, hsc, hlen, hcount, hpres⟩ :=
        bulkLoop_spec u now stopE items db supply {} hu
      rcases hb : bulkLoop u now true stopE items db supply {} with ⟨res₀, db₀, s₀⟩
      rw [hb] at h hsc hlen hcount hpres
      dsimp only at h hsc hlen hcount hpres
      have hd : res₀.successCount = d := by simpa using hsc
      rcases Nat.eq_zero_or_pos res₀.successCount with hz | hpos
      · rw [if_neg (by omega)] at h
        obtain ⟨rfl, rfl, rfl⟩ :
            res₀ = res ∧ db₀ = db' ∧ s₀ = s' := by
          simpa using h
        have hd0 : d = 0 := by omega
        subst hd0
        constructor
        · rw [hcount, hz]
          simp
        · omega
      · rw [if_pos hpos] at h
        obtain ⟨hres, hdb, -⟩ :
            res₀ = res ∧ incUrlCount db₀ u res₀.successCount = db' ∧ s₀ = s' := by
          simpa using h
        subst hres
        constructor
        · rw [← hdb, getUrlCount_inc _ hpres, hcount, hd]
          ring
        · rw [← hdb, incUrlCount_links, hlen, hd]

/-- C10 witness: bulk-creating two fresh URLs for user 1 on the empty store
reports `successCount = 2`, appends 2 links, and grows the `urlCount` cache
by 4 — twice the number of links created. -/
theorem C10_bulk_double_count_witness :
    ∃ (res : BulkResults) (db' : DB) (s' : List String),
      bulkCreateUrls c10DB ["ccc1", "ccc2"] 0 c10Items 1 true false =
        .ok (res, db', s') ∧
      res.successCount = 2 ∧
      getUrlCount db' 1 = getUrlCount c10DB 1 + 2 * res.successCount ∧
      db'.links.length = c10DB.links.length + res.successCount := by
  refine ⟨_, _, _, rfl, by decide, ?_, ?_⟩
  · exact (C10_bulk_double_count c10DB ["ccc1", "ccc2"] 0 c10Items 1 false
      (by decide) _ _ _ rfl).1
  · exact (C10_bulk_double_count c10DB ["ccc1", "ccc2"] 0 c10Items 1 false
      (by decide) _ _ _ rfl).2
